import Mathlib

/-! TokenPicker — shallow embedding of the token observation-and-collection engine

This file embeds, in Lean 4, the parts of the TokenPicker browser extension
relevant to the frozen claims:

* `background.js` — `addToken` (dedup + capacity), `extractTokenFromHeaders`,
  `extractTokensFromStorage`, `extractTokensFromCookies`, `handleWebRequest`,
  `updateActiveTab`, the `tabs.onActivated` / `tabs.onUpdated` listeners and
  the `SAVE_SETTINGS` / `SCAN_STORAGE` / `CLEAR_DATA` message handlers;
* `popup.js` — `maskToken`;
* `settings.js` — the settings-form submit handler (clamping and validation).

JavaScript strings are modelled as Lean `String`s (all strings in the claims
are in the Basic Multilingual Plane, so JS `length` in UTF-16 units agrees
with `String.length` in code points).  JS `Map` with insertion order is
modelled as an insertion-ordered association list.  JS falsiness of `""`,
`null` and `undefined` is made explicit at each use site.  `toLowerCase` is
modelled with `Char.toLower` (ASCII case mapping; every case-compared string
in the source is ASCII).
-/

namespace TokenPicker

/-- Lowercase a string character by character, as the source's
`toLowerCase()` on the ASCII strings it is applied to. -/
def lowerStr (s : String) : String := String.mk (s.data.map Char.toLower)

/-- The character class matched by `\s` in a JavaScript regular expression
(code points written with explicit escapes). -/
def jsSpace (c : Char) : Bool :=
  c == '\u0020' || c == '\u0009' || c == '\u000a' || c == '\u000b' ||
  c == '\u000c' || c == '\u000d' || c == '\u00a0' || c == '\u1680' ||
  ('\u2000' ≤ c && c ≤ '\u200a') ||
  c == '\u2028' || c == '\u2029' || c == '\u202f' || c == '\u205f' ||
  c == '\u3000' || c == '\ufeff'

/-- A JavaScript line terminator: the characters NOT matched by `.` in a
regular expression without the `s` flag. -/
def jsLineTerm (c : Char) : Bool :=
  c == '\u000a' || c == '\u000d' || c == '\u2028' || c == '\u2029'

/-- JS `s.includes(p)`: `p` occurs as a contiguous substring of `s`. -/
def strIncludes (s p : String) : Bool :=
  (List.range (s.data.length + 1)).any
    (fun i => ((s.data.drop i).take p.data.length) == p.data)

/-- The extension settings object (`DEFAULT_SETTINGS` shape in
`background.js`).  `tokenType` and `tokenSource` are kept as strings, as in
the source, so that unknown discriminator values behave as in JS `switch` /
object-lookup fallbacks. -/
structure Settings where
  tokenType : String
  customHeaderName : String
  tokenSource : String
  maxTokens : Nat
  autoCleanup : Bool
deriving Repr, DecidableEq

/-- The `DEFAULT_SETTINGS` object from `background.js`. -/
def DEFAULT_SETTINGS : Settings :=
  { tokenType := "bearer", customHeaderName := "", tokenSource := "headers",
    maxTokens := 5, autoCleanup := true }

/-- One request header, a name/value pair. -/
structure Header where
  name : String
  value : String
deriving Repr, DecidableEq

/-- Semantics of `value.match(/^Bearer\s+(.+)$/i)` in `extractTokenFromHeaders`,
returning the first capture group when the regex matches.

The regex matches when the value starts with a case-insensitive `Bearer`,
followed by at least one `\s` character, followed by at least one character,
where `.` excludes line terminators and `$` anchors at the very end of the
string.  `\s+` is greedy: the capture starts after the longest whitespace
run that still leaves a non-empty remainder.  Concretely, with `r` the text
after the `Bearer` prefix:
* if `r` has no leading whitespace, there is no match;
* if the part of `r` after its leading whitespace run is non-empty, the
  capture is that part — provided it contains no line terminator (otherwise
  `(.+)$` cannot match and no amount of backtracking helps, since shrinking
  the `\s+` run only prepends characters to the candidate capture);
* if `r` is entirely whitespace, backtracking leaves the last character as
  the capture, provided `r` has at least two characters and its last
  character is not a line terminator.
-/
def bearerCapture (value : String) : Option String :=
  let cs := value.data
  if (cs.take 6).map Char.toLower == "bearer".data then
    let r := cs.drop 6
    let w := r.takeWhile jsSpace
    let t := r.dropWhile jsSpace
    if w.isEmpty then none
    else if !t.isEmpty then
      if t.any jsLineTerm then none else some (String.mk t)
    else
      match r.getLast? with
      | some c => if r.length ≥ 2 && !jsLineTerm c then some (String.mk [c]) else none
      | none => none
  else none

/-- Embedding of `extractTokenFromHeaders(headers, settings)` from `background.js`: walk the
header list in order; depending on `settings.tokenType`, return the first
token found, or `none` (JS `null`).

* `"bearer"`: header named `authorization` (case-insensitive) whose value
  matches `/^Bearer\s+(.+)$/i`; the capture is returned.
* `"session"`: header named `x-session-token`, `session-token` or
  `x-session-id`; the value is returned verbatim.
* `"custom"`: `settings.customHeaderName` truthy (non-empty) and the header
  name equals its lowercase form; the value is returned verbatim.
* any other `tokenType`: no `switch` case applies, no header ever matches.
-/
def extractTokenFromHeaders (headers : List Header) (settings : Settings) :
    Option String :=
  match headers with
  | [] => none
  | h :: rest =>
    let name := lowerStr h.name
    if settings.tokenType == "bearer" then
      if name == "authorization" then
        match bearerCapture h.value with
        | some tok => some tok
        | none => extractTokenFromHeaders rest settings
      else extractTokenFromHeaders rest settings
    else if settings.tokenType == "session" then
      if name == "x-session-token" || name == "session-token" ||
         name == "x-session-id" then
        some h.value
      else extractTokenFromHeaders rest settings
    else if settings.tokenType == "custom" then
      if settings.customHeaderName != "" &&
         name == lowerStr settings.customHeaderName then
        some h.value
      else extractTokenFromHeaders rest settings
    else extractTokenFromHeaders rest settings

/-- One entry of the in-memory token map: `detectedTokens` in
`background.js` maps a token to `{ url, timestamp }`, in insertion order. -/
structure Entry where
  token : String
  url : String
  timestamp : Nat
deriving Repr, DecidableEq

/-- The token collection: the insertion-ordered `detectedTokens` map,
as a list of entries (JS `Map` preserves insertion order; `set` of a new
key appends at the end). -/
abbrev Collection := List Entry

/-- Membership test `detectedTokens.has(token)`. -/
def hasToken (c : Collection) (token : String) : Bool :=
  c.any (fun e => e.token == token)

/-- Which branch `addToken` took, mirroring the spec's `IngestOutcome`
vocabulary for the three exits of the function. -/
inductive AddOutcome where
  | duplicateIgnored
  | capacityReached
  | accepted
deriving Repr, DecidableEq

/-- Embedding of `addToken(token, url, maxTokens)` from `background.js`, with `now` standing
for `Date.now()`:
* if the token is already a key of the map, return with no change;
* else if `detectedTokens.size >= maxTokens`, return with no change;
* else append `{ url, timestamp: now }` under the token key.
The outcome records which branch ran. -/
def addToken (c : Collection) (token url : String) (maxTokens : Nat)
    (now : Nat) : Collection × AddOutcome :=
  if hasToken c token then
    (c, .duplicateIgnored)
  else if c.length ≥ maxTokens then
    (c, .capacityReached)
  else
    (c ++ [⟨token, url, now⟩], .accepted)

/-- One ingest request: the arguments of one `addToken` call. -/
structure AddReq where
  token : String
  url : String
  now : Nat
deriving Repr, DecidableEq

/-- Run a sequence of `addToken` calls with a fixed `maxTokens` over a
starting collection. -/
def runAdds (maxTokens : Nat) (reqs : List AddReq) (c : Collection) :
    Collection :=
  match reqs with
  | [] => c
  | r :: rest => runAdds maxTokens rest (addToken c r.token r.url maxTokens r.now).1

/-- A found token item produced by the storage / cookie scans:
`{ token, url }` as pushed into the `tokens` array. -/
structure TokenItem where
  token : String
  url : String
deriving Repr, DecidableEq

/-- The bearer keyword list of the `patterns` object inside
`extractTokensFromStorage`. -/
def storageBearerKeywords : List String :=
  ["token", "access_token", "accessToken", "auth_token", "authToken", "bearer"]

/-- The lookup `patterns[tokenType] || patterns.bearer` inside
`extractTokensFromStorage`.  `patterns.custom` is `[]` (a truthy value in
JS, so no fallback) when `customHeaderName` is empty; an unknown
`tokenType` yields `undefined` and falls back to the bearer list. -/
def storageSearchPatterns (tokenType customHeaderName : String) :
    List String :=
  if tokenType == "bearer" then storageBearerKeywords
  else if tokenType == "session" then
    ["session", "sessionToken", "session_token", "sessionId", "session_id"]
  else if tokenType == "custom" then
    if customHeaderName != "" then [lowerStr customHeaderName] else []
  else storageBearerKeywords

/-- The inner pattern loop of the storage / cookie scans:
`keyLower.includes(pattern.toLowerCase())` for some pattern in the list
(the loop `break`s on the first matching pattern; whether the value is
pushed does not depend on which pattern matched). -/
def keyMatchesPatterns (patterns : List String) (keyLower : String) : Bool :=
  patterns.any (fun p => strIncludes keyLower (lowerStr p))

/-- One store's scan loop inside `extractTokensFromStorage`: for each
`(key, value)` pair, if the lowered key contains some pattern and the value
is truthy with length `> 10`, push `{ token: value, url: "<tag>:<key>" }`. -/
def scanStore (tag : String) (entries : List (String × String))
    (patterns : List String) : List TokenItem :=
  entries.filterMap (fun kv =>
    if keyMatchesPatterns patterns (lowerStr kv.1) && kv.2.length > 10 then
      some ⟨kv.2, tag ++ ":" ++ kv.1⟩
    else none)

/-- Embedding of `extractTokensFromStorage` (the injected function body in
`background.js`): scan `localStorage` then `sessionStorage` key/value pairs
against the keyword patterns for the configured token type. -/
def extractTokensFromStorage (tokenType customHeaderName : String)
    (localStore sessionStore : List (String × String)) : List TokenItem :=
  scanStore "localStorage" localStore
      (storageSearchPatterns tokenType customHeaderName) ++
  scanStore "sessionStorage" sessionStore
      (storageSearchPatterns tokenType customHeaderName)

/-- The lookup `patterns[tokenType] || patterns.bearer` inside
`extractTokensFromCookies` (a different keyword list than the storage
scan). -/
def cookieSearchPatterns (tokenType customHeaderName : String) :
    List String :=
  if tokenType == "bearer" then
    ["token", "access_token", "auth_token", "bearer", "jwt"]
  else if tokenType == "session" then
    ["session", "sessionid", "session_id", "sid"]
  else if tokenType == "custom" then
    if customHeaderName != "" then [lowerStr customHeaderName] else []
  else ["token", "access_token", "auth_token", "bearer", "jwt"]

/-- Embedding of `extractTokensFromCookies` from `background.js`: for each cookie
`(name, value)`, if the lowered name contains some pattern and the value is
truthy with length `> 10`, push `{ token: value, url: "cookie:<name>" }`. -/
def extractTokensFromCookies (tokenType customHeaderName : String)
    (cookies : List (String × String)) : List TokenItem :=
  cookies.filterMap (fun kv =>
    if keyMatchesPatterns (cookieSearchPatterns tokenType customHeaderName)
        (lowerStr kv.1) && kv.2.length > 10 then
      some ⟨kv.2, "cookie:" ++ kv.1⟩
    else none)

/-- The repeated mask unit of `maskToken` in `popup.js`.  The source file
contains the literal three-character sequence U+201A U+00C4 U+00A2 (a
double-encoded bullet), so one `repeat` unit is three characters long. -/
def maskUnit : List Char := ['‚', 'Ä', '¢']

/-- The constant placeholder `maskToken` returns for short or falsy tokens:
twelve repetitions of the mask unit. -/
def maskPlaceholder : String := String.mk (List.flatten (List.replicate 12 maskUnit))

/-- Embedding of `maskToken(token)` from `popup.js`:
* falsy token (empty string) or `token.length < 12`: the constant
  placeholder;
* otherwise `token.slice(0, 4) + unit.repeat(Math.min(20, token.length - 8))
  + token.slice(-4)`. -/
def maskToken (token : String) : String :=
  if token == "" || token.length < 12 then
    maskPlaceholder
  else
    String.mk (token.data.take 4) ++
    String.mk (List.flatten (List.replicate (min 20 (token.length - 4 - 4)) maskUnit)) ++
    String.mk (token.data.drop (token.length - 4))

/-- JS `s.trim()`: strip whitespace and line terminators from
both ends (the same character set as `jsSpace`). -/
def jsTrim (s : String) : String :=
  String.mk (((s.data.dropWhile jsSpace).reverse.dropWhile jsSpace).reverse)

/-- The mutable state of the background service worker that the claims are
about: current settings (`chrome.storage.local` merged with defaults), the
`detectedTokens` map, and `activeTabId` (`null` initially, hence
`Option`). -/
structure BGState where
  settings : Settings
  tokens : Collection
  activeTabId : Option Int
deriving Repr, DecidableEq

/-- The fields of the `details` object that `handleWebRequest` reads. -/
structure RequestDetails where
  tabId : Int
  url : String
  requestHeaders : List Header
deriving Repr, DecidableEq

/-- Embedding of `handleWebRequest(details)` from `background.js`: ignore requests from
other tabs, ignore unless `tokenSource` is `"headers"`, extract a token
from the request headers, ignore falsy tokens (`null` or the empty
string), and otherwise run `addToken` with the request URL. -/
def handleWebRequest (st : BGState) (d : RequestDetails) (now : Nat) :
    BGState :=
  if st.activeTabId != some d.tabId then st
  else if st.settings.tokenSource != "headers" then st
  else
    match extractTokenFromHeaders d.requestHeaders st.settings with
    | none => st
    | some tok =>
      if tok == "" then st
      else
        let added := (addToken st.tokens tok d.url st.settings.maxTokens now).1
        { st with tokens := added }

/-- Embedding of `updateActiveTab()` from `background.js`, with `queried` the result of
the active-tab query (`none` when no tab is returned): if a tab was found
and its id differs from the stored `activeTabId`, store the new id and
clear the token map; otherwise do nothing. -/
def updateActiveTab (st : BGState) (queried : Option Int) : BGState :=
  match queried with
  | some tid =>
    if some tid != st.activeTabId then
      { st with activeTabId := some tid, tokens := [] }
    else st
  | none => st

/-- The `chrome.tabs.onActivated` listener from `background.js`: store the
new tab id and clear the token map, unconditionally (no comparison against
the previous `activeTabId`). -/
def tabsActivatedListener (st : BGState) (tid : Int) : BGState :=
  { st with activeTabId := some tid, tokens := [] }

/-- The `chrome.tabs.onUpdated` listener from `background.js`: when the
updated tab is the active one and `changeInfo.status` is `"loading"`
(navigation), clear the token map. -/
def tabsUpdatedListener (st : BGState) (tid : Int) (status : String) :
    BGState :=
  if some tid == st.activeTabId && status == "loading" then
    { st with tokens := [] }
  else st

/-- The `SAVE_SETTINGS` branch of the message handler in `background.js`:
persist the received settings object as-is (no validation here) and clear
the token map. -/
def handleSaveSettings (st : BGState) (s : Settings) : BGState :=
  { st with settings := s, tokens := [] }

/-- The `CLEAR_DATA` branch of the message handler: clear the token map. -/
def handleClearData (st : BGState) : BGState :=
  { st with tokens := [] }

/-- Fold a list of found items through `addToken`, as the `SCAN_STORAGE`
branch does with the results of a storage/cookie scan. -/
def addFoundTokens (c : Collection) (items : List TokenItem)
    (maxTokens now : Nat) : Collection :=
  items.foldl (fun acc it => (addToken acc it.token it.url maxTokens now).1) c

/-- The `SCAN_STORAGE` branch of the message handler: when `tokenSource` is
`"storage"`, scan the active tab's web storage; when it is `"cookies"` and
the active tab has a URL, scan its cookies; otherwise nothing.  Found items
are added one by one through `addToken`. -/
def handleScanMessage (st : BGState)
    (localStore sessionStore cookiePairs : List (String × String))
    (tabUrl : Option String) (now : Nat) : BGState :=
  if st.settings.tokenSource == "storage" then
    let found := extractTokensFromStorage st.settings.tokenType
      st.settings.customHeaderName localStore sessionStore
    { st with tokens := addFoundTokens st.tokens found st.settings.maxTokens now }
  else if st.settings.tokenSource == "cookies" then
    match tabUrl with
    | some _ =>
      let found := extractTokensFromCookies st.settings.tokenType
        st.settings.customHeaderName cookiePairs
      { st with tokens := addFoundTokens st.tokens found st.settings.maxTokens now }
    | none => st
  else st

/-- The data gathered from the settings form by the submit handler in
`settings.js`: the checked radio values, the slider value (`parseInt`
result, an integer), the raw custom-header text field, and the cleanup
checkbox. -/
structure FormInput where
  tokenType : String
  tokenSource : String
  sliderValue : Int
  customHeaderValue : String
  autoCleanup : Bool
deriving Repr, DecidableEq

/-- Result of the settings-form submit handler: either the settings object
sent in a `SAVE_SETTINGS` message, or a validation error shown to the user
(in which case no message is sent). -/
inductive SubmitResult where
  | saved (s : Settings)
  | validationError
deriving Repr, DecidableEq

/-- The `settingsForm` submit handler from `settings.js`:
* clamp the slider value into `[1, 5]` (`if > 5 then 5; if < 1 then 1`);
* `customHeaderName` is the trimmed text field when the token type is
  `"custom"`, and `""` otherwise;
* when the token type is `"custom"` and the trimmed name is empty, show a
  validation error and return without sending anything;
* otherwise send the assembled settings in a `SAVE_SETTINGS` message. -/
def settingsSubmit (f : FormInput) : SubmitResult :=
  let m1 : Int := if f.sliderValue > 5 then 5 else f.sliderValue
  let m2 : Int := if m1 < 1 then 1 else m1
  let customHeaderName :=
    if f.tokenType == "custom" then jsTrim f.customHeaderValue else ""
  if f.tokenType == "custom" && customHeaderName == "" then
    .validationError
  else
    .saved { tokenType := f.tokenType, customHeaderName := customHeaderName,
             tokenSource := f.tokenSource, maxTokens := m2.toNat,
             autoCleanup := f.autoCleanup }

/-- The end-to-end settings-save path (the spec's `SetPolicy`): run the
form submit handler; on a validation error the background state is
untouched and `false` is returned; on success the background's
`SAVE_SETTINGS` branch stores the new settings and clears the token map. -/
def setPolicy (st : BGState) (f : FormInput) : BGState × Bool :=
  match settingsSubmit f with
  | .validationError => (st, false)
  | .saved s => (handleSaveSettings st s, true)

/-- The events driving the background service worker that the claims
quantify over.  Scan events carry the store/cookie contents the host
environment would return. -/
inductive BgEvent where
  | webRequest (d : RequestDetails) (now : Nat)
  | scanRequest (localStore sessionStore cookiePairs : List (String × String))
      (tabUrl : Option String) (now : Nat)
  | clearData
  | settingsFormSubmit (f : FormInput)
  | tabActivated (tid : Int)
  | tabUpdated (tid : Int) (status : String)
deriving Repr, DecidableEq

/-- One step of the background service worker: dispatch an event to the
handler the source registers for it. -/
def stepEvent (st : BGState) (ev : BgEvent) : BGState :=
  match ev with
  | .webRequest d now => handleWebRequest st d now
  | .scanRequest ls ss ck u now => handleScanMessage st ls ss ck u now
  | .clearData => handleClearData st
  | .settingsFormSubmit f => (setPolicy st f).1
  | .tabActivated tid => tabsActivatedListener st tid
  | .tabUpdated tid status => tabsUpdatedListener st tid status

/-- Run a sequence of events from a starting state. -/
def runEvents (st : BGState) (evs : List BgEvent) : BGState :=
  evs.foldl stepEvent st

/-! Section: Helper lemmas about `addToken` and `runAdds` -/

/-- Running `addToken` on a stored token is the duplicate branch: no change. -/
theorem addToken_dup (c : Collection) (tok url : String) (k now : Nat)
    (h : hasToken c tok = true) :
    addToken c tok url k now = (c, AddOutcome.duplicateIgnored) := by
  simp [addToken, h]

/-- Running `addToken` on a fresh token at (or beyond) capacity is the capacity
branch: no change, nothing evicted. -/
theorem addToken_cap (c : Collection) (tok url : String) (k now : Nat)
    (hdup : hasToken c tok = false) (hlen : c.length ≥ k) :
    addToken c tok url k now = (c, AddOutcome.capacityReached) := by
  simp [addToken, hdup, hlen]

/-- Running `addToken` on a fresh token below capacity appends the new entry. -/
theorem addToken_acc (c : Collection) (tok url : String) (k now : Nat)
    (hdup : hasToken c tok = false) (hlen : c.length < k) :
    addToken c tok url k now = (c ++ [⟨tok, url, now⟩], AddOutcome.accepted) := by
  simp [addToken, hdup, Nat.not_le_of_lt hlen]

/-- The function `addToken` preserves the size bound. -/
theorem addToken_length_le (c : Collection) (tok url : String) (k now : Nat)
    (h : c.length ≤ k) : (addToken c tok url k now).1.length ≤ k := by
  by_cases hdup : hasToken c tok
  · simp [addToken, hdup, h]
  · by_cases hlen : c.length ≥ k
    · simp [addToken, hdup, hlen, h]
    · have hlt : c.length < k := Nat.lt_of_not_le hlen
      simp [addToken, hdup, hlen]
      omega

/-- Any entry of the collection after `addToken` was already there or is
the freshly inserted one. -/
theorem addToken_mem (c : Collection) (tok url : String) (k now : Nat)
    (e : Entry) (h : e ∈ (addToken c tok url k now).1) :
    e ∈ c ∨ e = ⟨tok, url, now⟩ := by
  by_cases hdup : hasToken c tok
  · simp [addToken, hdup] at h; exact Or.inl h
  · by_cases hlen : c.length ≥ k
    · simp [addToken, hdup, hlen] at h; exact Or.inl h
    · simp [addToken, hdup, hlen] at h
      rcases h with h | h
      · exact Or.inl h
      · exact Or.inr h

/-- An entry found under a token key survives `addToken` unchanged
(`find?` searches front to back, and `addToken` only ever appends). -/
theorem addToken_find_persist (c : Collection) (t tok url : String)
    (k now : Nat) (e : Entry)
    (h : c.find? (fun x => x.token == t) = some e) :
    (addToken c tok url k now).1.find? (fun x => x.token == t) = some e := by
  by_cases hdup : hasToken c tok
  · simpa [addToken, hdup] using h
  · by_cases hlen : c.length ≥ k
    · simpa [addToken, hdup, hlen] using h
    · simp [addToken, hdup, hlen, List.find?_append, h]

/-- The function `addToken` keeps token keys pairwise distinct. -/
theorem addToken_nodup (c : Collection) (tok url : String) (k now : Nat)
    (h : (c.map Entry.token).Nodup) :
    ((addToken c tok url k now).1.map Entry.token).Nodup := by
  by_cases hdup : hasToken c tok
  · simpa [addToken, hdup] using h
  · by_cases hlen : c.length ≥ k
    · simpa [addToken, hdup, hlen] using h
    · have hnotin : tok ∉ c.map Entry.token := by
        intro hmem
        rcases List.mem_map.mp hmem with ⟨e, he, htok⟩
        have : hasToken c tok = true :=
          List.any_eq_true.mpr ⟨e, he, by simp [htok]⟩
        simp [this] at hdup
      have hdup' : hasToken c tok = false := by
        simpa using hdup
      rw [addToken_acc c tok url k now hdup' (Nat.lt_of_not_le hlen)]
      simp only [List.map_append]
      rw [List.nodup_append]
      refine ⟨h, by simp, ?_⟩
      intro a ha hb
      simp at hb
      subst hb
      exact hnotin ha

/-- The run `runAdds` preserves the size bound. -/
theorem runAdds_length_le (k : Nat) (reqs : List AddReq) (c : Collection)
    (h : c.length ≤ k) : (runAdds k reqs c).length ≤ k := by
  induction reqs generalizing c with
  | nil => simpa [runAdds] using h
  | cons r rest ih =>
    exact ih _ (addToken_length_le c r.token r.url k r.now h)

/-- An entry found under a token key survives a whole `runAdds` run. -/
theorem runAdds_find_persist (k : Nat) (reqs : List AddReq) (c : Collection)
    (t : String) (e : Entry)
    (h : c.find? (fun x => x.token == t) = some e) :
    (runAdds k reqs c).find? (fun x => x.token == t) = some e := by
  induction reqs generalizing c with
  | nil => simpa [runAdds] using h
  | cons r rest ih =>
    exact ih _ (addToken_find_persist c t r.token r.url k r.now e h)

/-- The run `runAdds` keeps token keys pairwise distinct. -/
theorem runAdds_nodup (k : Nat) (reqs : List AddReq) (c : Collection)
    (h : (c.map Entry.token).Nodup) :
    ((runAdds k reqs c).map Entry.token).Nodup := by
  induction reqs generalizing c with
  | nil => simpa [runAdds] using h
  | cons r rest ih =>
    exact ih _ (addToken_nodup c r.token r.url k r.now h)

/-! Section: Claims C1, C2, C6 -/

/-- C1 (confirmed).  For every sequence of ingested events and every
policy with `maxEntries = k`, the collection's size never exceeds `k`
(starting from any collection within the bound, in particular the empty
one); and when the collection already holds `k` entries, ingesting a
further distinct token takes the capacity branch (`CapacityReached`),
leaving the collection exactly as it was — no entry evicted or modified. -/
theorem claim1_capacity_bound (k : Nat) :
    (∀ (reqs : List AddReq) (c : Collection), c.length ≤ k →
      (runAdds k reqs c).length ≤ k) ∧
    (∀ (c : Collection) (tok url : String) (now : Nat),
      c.length = k → hasToken c tok = false →
      addToken c tok url k now = (c, AddOutcome.capacityReached)) := by
  constructor
  · intro reqs c h
    exact runAdds_length_le k reqs c h
  · intro c tok url now hlen hdup
    exact addToken_cap c tok url k now hdup (Nat.le_of_eq hlen.symm)

/-- Witness for C1 at `k = 1`: a second distinct token is rejected with
`CapacityReached` and the bound holds on a concrete run. -/
theorem claim1_capacity_bound_witness :
    (runAdds 1 [⟨"A", "u1", 0⟩, ⟨"B", "u2", 1⟩] []).length ≤ 1 ∧
    addToken [⟨"A", "u1", 0⟩] "B" "u2" 1 1 =
      ([⟨"A", "u1", 0⟩], AddOutcome.capacityReached) :=
  ⟨(claim1_capacity_bound 1).1 [⟨"A", "u1", 0⟩, ⟨"B", "u2", 1⟩] [] (by decide),
   (claim1_capacity_bound 1).2 [⟨"A", "u1", 0⟩] "B" "u2" 1 rfl (by decide)⟩

/-- C2 (counterexample).  The claim says that whenever the same token
value is produced by two or more events, the collection contains *exactly
one* entry for it.  Under `maxEntries = 1`, after the run
`A@u1, X@u2, X@u3`, the token `X` was produced by two events (with two
different sources) yet the collection contains *zero* entries for it: both
occurrences arrived while the collection was full with `A`, so both were
discarded by the capacity branch. -/
theorem claim2_counterexample :
    runAdds 1 [⟨"A", "u1", 0⟩, ⟨"X", "u2", 1⟩, ⟨"X", "u3", 2⟩] [] =
      [⟨"A", "u1", 0⟩] ∧
    (runAdds 1 [⟨"A", "u1", 0⟩, ⟨"X", "u2", 1⟩, ⟨"X", "u3", 2⟩] []).filter
      (fun e => e.token == "X") = [] := by
  constructor <;> rfl

/-- C2 (amended, proved).  Deduplication as the code implements it:
token keys stay pairwise distinct (at most one entry per token value); an
entry found under a token key survives any further event run unchanged, so
the representative source fixed by the *first accepted* occurrence is never
updated by later sightings; a duplicate of a stored token takes the
duplicate branch (`DuplicateIgnored`) with no hypothesis on the collection
size, i.e. even at capacity the duplicate check precedes the capacity
check; and a first accepted occurrence inserts the entry carrying its own
source.  (When every occurrence of a token arrives at capacity, the
collection holds zero — not one — entries for it, per the
counterexample.) -/
theorem claim2_dedup_amended (k now : Nat) (reqs : List AddReq)
    (c : Collection) (e : Entry) (tok url : String) :
    ((c.map Entry.token).Nodup → ((runAdds k reqs c).map Entry.token).Nodup) ∧
    (c.find? (fun x => x.token == e.token) = some e →
      (runAdds k reqs c).find? (fun x => x.token == e.token) = some e) ∧
    (hasToken c tok = true →
      addToken c tok url k now = (c, AddOutcome.duplicateIgnored)) ∧
    (hasToken c tok = false → c.length < k →
      addToken c tok url k now = (c ++ [⟨tok, url, now⟩], AddOutcome.accepted)) :=
  ⟨runAdds_nodup k reqs c,
   runAdds_find_persist k reqs c e.token e,
   fun h => addToken_dup c tok url k now h,
   fun h1 h2 => addToken_acc c tok url k now h1 h2⟩

/-- Witness for the amended C2: concrete dedup run at capacity 1 — the
stored entry for `"X"` keeps its first source `u1` across a duplicate
sighting from `u2`, the duplicate is `DuplicateIgnored` even though the
collection is full, and a fresh accept appends. -/
theorem claim2_dedup_amended_witness :
    (((runAdds 1 [⟨"X", "u2", 5⟩] [⟨"X", "u1", 0⟩]).map Entry.token).Nodup) ∧
    ((runAdds 1 [⟨"X", "u2", 5⟩] [⟨"X", "u1", 0⟩]).find?
      (fun x => x.token == "X") = some ⟨"X", "u1", 0⟩) ∧
    (addToken [⟨"X", "u1", 0⟩] "X" "u2" 1 5 =
      ([⟨"X", "u1", 0⟩], AddOutcome.duplicateIgnored)) ∧
    (addToken [] "X" "u1" 1 0 = ([⟨"X", "u1", 0⟩], AddOutcome.accepted)) := by
  have h := claim2_dedup_amended 1 5 [⟨"X", "u2", 5⟩] [⟨"X", "u1", 0⟩]
    ⟨"X", "u1", 0⟩ "X" "u2"
  have h' := claim2_dedup_amended 1 0 [] [] ⟨"X", "u1", 0⟩ "X" "u1"
  exact ⟨h.1 (by decide), h.2.1 (by decide), h.2.2.1 (by decide),
    h'.2.2.2 (by decide) (by decide)⟩

/-- C6 (confirmed).  Every successful settings save (the spec's
`SetPolicy`) clears the token map: the `SAVE_SETTINGS` branch
unconditionally replaces the settings and clears `detectedTokens`, so no
entry ingested under the previous policy remains visible to any later
read. -/
theorem claim6_policy_reset (st : BGState) (s : Settings) (f : FormInput) :
    (handleSaveSettings st s).tokens = [] ∧
    ((setPolicy st f).2 = true → (setPolicy st f).1.tokens = []) := by
  refine ⟨rfl, ?_⟩
  intro hok
  unfold setPolicy at *
  cases h : settingsSubmit f with
  | saved s' => simp [h, handleSaveSettings]
  | validationError => simp [h] at hok

/-- Witness for C6: a concrete successful save leaves an empty
collection. -/
theorem claim6_policy_reset_witness :
    (setPolicy ⟨DEFAULT_SETTINGS, [⟨"X", "u", 0⟩], some 1⟩
      ⟨"bearer", "headers", 3, "", true⟩).1.tokens = [] :=
  (claim6_policy_reset ⟨DEFAULT_SETTINGS, [⟨"X", "u", 0⟩], some 1⟩
    DEFAULT_SETTINGS ⟨"bearer", "headers", 3, "", true⟩).2 (by decide)

/-! Section: Claims C3, C4, C7 -/

/-- C3 (counterexample).  The claim says the middle of a long token is
replaced by a *fixed-width* placeholder.  In the code the mask run is
`unit.repeat(min(20, length - 8))`, so its width varies with the token
length: for the 12-character token the masked middle is 4 repetitions
(12 characters, the unit being 3 characters long), for the 13-character
token it is 5 repetitions (15 characters) — two different widths, so the
placeholder is not fixed-width. -/
theorem claim3_counterexample :
    maskToken "abcdefghijkl" = "abcd‚Ä¢‚Ä¢‚Ä¢‚Ä¢ijkl" ∧
    maskToken "abcdefghijklm" = "abcd‚Ä¢‚Ä¢‚Ä¢‚Ä¢‚Ä¢jklm" ∧
    (maskToken "abcdefghijkl").length - 8 = 12 ∧
    (maskToken "abcdefghijklm").length - 8 = 15 := by
  exact ⟨rfl, rfl, rfl, rfl⟩

/-- C3 (amended, proved).  For a token of length ≥ 12 the masked
output is exactly the first 4 characters, then the mask unit repeated
`min 20 (length - 8)` times — a width *capped* at 20 repetitions but
varying with the length below that cap, not fixed — then the last 4
characters; for a token of length < 12 the output is the fully-masked
constant placeholder, identical for all such tokens, hence leaking no
characters of the original. -/
theorem claim3_masking_amended (token : String) :
    (12 ≤ token.length →
      (maskToken token).data =
        token.data.take 4 ++
        List.flatten (List.replicate (min 20 (token.length - 8)) maskUnit) ++
        token.data.drop (token.length - 4)) ∧
    (token.length < 12 → maskToken token = maskPlaceholder) := by
  constructor
  · intro h
    have hne : (token == "") = false := by
      cases token with
      | mk data =>
        cases data with
        | nil => simp [String.length] at h
        | cons a l => simp [String.ext_iff]
    have hlt : ¬ token.length < 12 := by omega
    simp [maskToken, hne, hlt, Nat.sub_sub]
  · intro h
    simp [maskToken, h]

/-- Witness for the amended C3 at a length-12 token and a short token. -/
theorem claim3_masking_amended_witness :
    (maskToken "abcdefghijkl").data =
      "abcdefghijkl".data.take 4 ++
      List.flatten (List.replicate (min 20 ("abcdefghijkl".length - 8)) maskUnit) ++
      "abcdefghijkl".data.drop ("abcdefghijkl".length - 4) ∧
    maskToken "short" = maskPlaceholder :=
  ⟨(claim3_masking_amended "abcdefghijkl").1 (by decide),
   (claim3_masking_amended "short").2 (by decide)⟩

/-- C4 (counterexample).  The claim says a settings save with
`maxEntries` outside `1..5` is rejected with a validation error and leaves
the policy unchanged.  In the code the settings form *clamps* the slider
value into `[1, 5]` and saves: submitting `maxTokens = 7` over an active
policy with `maxTokens = 3` succeeds and replaces the policy (with the
clamped value 5) — no validation error, old policy gone. -/
theorem claim4_counterexample :
    settingsSubmit ⟨"bearer", "headers", 7, "", true⟩ =
      SubmitResult.saved ⟨"bearer", "", "headers", 5, true⟩ ∧
    setPolicy ⟨⟨"bearer", "", "headers", 3, true⟩, [], none⟩
        ⟨"bearer", "headers", 7, "", true⟩ =
      (⟨⟨"bearer", "", "headers", 5, true⟩, [], none⟩, true) ∧
    (⟨"bearer", "", "headers", 5, true⟩ : Settings) ≠
      ⟨"bearer", "", "headers", 3, true⟩ := by
  exact ⟨rfl, rfl, by decide⟩

/-- C4 (amended, proved).  A save request with token type `custom` and
an empty (after trimming) header name is rejected with a validation error
and leaves the whole background state — in particular the active policy —
unchanged; any rejected save leaves the state unchanged; and every save
that goes through stores a policy whose `maxTokens` lies in `[1, 5]` (the
slider value is clamped, not rejected) and clears the collection. -/
theorem claim4_validation_amended (st : BGState) (f : FormInput) :
    (f.tokenType = "custom" → jsTrim f.customHeaderValue = "" →
      setPolicy st f = (st, false)) ∧
    ((setPolicy st f).2 = false → (setPolicy st f).1 = st) ∧
    ((setPolicy st f).2 = true →
      1 ≤ (setPolicy st f).1.settings.maxTokens ∧
      (setPolicy st f).1.settings.maxTokens ≤ 5 ∧
      (setPolicy st f).1.tokens = []) := by
  refine ⟨?_, ?_, ?_⟩
  · intro h1 h2
    simp [setPolicy, settingsSubmit, h1, h2]
  · intro h
    cases hs : settingsSubmit f with
    | saved s => simp [setPolicy, hs] at h
    | validationError => simp [setPolicy, hs]
  · intro h
    cases hs : settingsSubmit f with
    | validationError => simp [setPolicy, hs] at h
    | saved s =>
      have hmax : 1 ≤ s.maxTokens ∧ s.maxTokens ≤ 5 := by
        simp only [settingsSubmit] at hs
        split_ifs at hs <;> cases hs <;> constructor <;> dsimp only <;> omega
      refine ⟨?_, ?_, ?_⟩
      · simpa [setPolicy, hs] using hmax.1
      · simpa [setPolicy, hs] using hmax.2
      · simp [setPolicy, hs, handleSaveSettings]

/-- Witness for the amended C4: the empty-custom-header rejection at a
concrete input, and a concrete out-of-range save that is clamped. -/
theorem claim4_validation_amended_witness :
    setPolicy ⟨DEFAULT_SETTINGS, [⟨"X", "u", 0⟩], some 1⟩
        ⟨"custom", "headers", 3, "   ", true⟩ =
      (⟨DEFAULT_SETTINGS, [⟨"X", "u", 0⟩], some 1⟩, false) ∧
    (1 ≤ (setPolicy ⟨DEFAULT_SETTINGS, [], none⟩
        ⟨"bearer", "headers", 9, "", true⟩).1.settings.maxTokens ∧
     (setPolicy ⟨DEFAULT_SETTINGS, [], none⟩
        ⟨"bearer", "headers", 9, "", true⟩).1.settings.maxTokens ≤ 5 ∧
     (setPolicy ⟨DEFAULT_SETTINGS, [], none⟩
        ⟨"bearer", "headers", 9, "", true⟩).1.tokens = []) :=
  ⟨(claim4_validation_amended ⟨DEFAULT_SETTINGS, [⟨"X", "u", 0⟩], some 1⟩
      ⟨"custom", "headers", 3, "   ", true⟩).1 rfl (by decide),
   (claim4_validation_amended ⟨DEFAULT_SETTINGS, [], none⟩
      ⟨"bearer", "headers", 9, "", true⟩).2.2 (by decide)⟩

/-- C7 (counterexample).  The claim says the context-change handler is
a no-op when the new context identifier equals the stored one.  The
`tabs.onActivated` listener — the handler registered for activation
changes — performs no such comparison: invoked with the already-active tab
id 1, it still clears a non-empty collection, so it is not a no-op. -/
theorem claim7_counterexample :
    (tabsActivatedListener ⟨DEFAULT_SETTINGS, [⟨"tok", "u", 0⟩], some 1⟩
      1).tokens = [] ∧
    tabsActivatedListener ⟨DEFAULT_SETTINGS, [⟨"tok", "u", 0⟩], some 1⟩ 1 ≠
      ⟨DEFAULT_SETTINGS, [⟨"tok", "u", 0⟩], some 1⟩ := by
  exact ⟨rfl, by decide⟩

/-- C7 (amended, proved).  The startup path `updateActiveTab` does
compare: it stores the queried id and resets exactly when the id differs,
and is a no-op when it is equal.  The `tabs.onActivated` listener, however,
resets the collection and stores the id *unconditionally*, even when the
identifier is unchanged.  A content-changed signal (`tabs.onUpdated` with
status `"loading"`) for the active context always resets the collection
even though the identifier is unchanged. -/
theorem claim7_context_amended (st : BGState) (tid : Int) :
    (some tid ≠ st.activeTabId →
      updateActiveTab st (some tid) =
        { st with activeTabId := some tid, tokens := [] }) ∧
    (some tid = st.activeTabId → updateActiveTab st (some tid) = st) ∧
    tabsActivatedListener st tid =
      { st with activeTabId := some tid, tokens := [] } ∧
    (some tid = st.activeTabId →
      tabsUpdatedListener st tid "loading" = { st with tokens := [] }) := by
  refine ⟨?_, ?_, rfl, ?_⟩
  · intro h
    simp [updateActiveTab, bne, h]
  · intro h
    simp [updateActiveTab, bne, h]
  · intro h
    simp [tabsUpdatedListener, h]

/-- Witness for the amended C7 at concrete states: a differing id resets
and updates, an equal id is a no-op on the query path, and a `"loading"`
update of the active tab resets. -/
theorem claim7_context_amended_witness :
    updateActiveTab ⟨DEFAULT_SETTINGS, [⟨"tok", "u", 0⟩], some 1⟩ (some 2) =
      ⟨DEFAULT_SETTINGS, [], some 2⟩ ∧
    updateActiveTab ⟨DEFAULT_SETTINGS, [⟨"tok", "u", 0⟩], some 1⟩ (some 1) =
      ⟨DEFAULT_SETTINGS, [⟨"tok", "u", 0⟩], some 1⟩ ∧
    tabsUpdatedListener ⟨DEFAULT_SETTINGS, [⟨"tok", "u", 0⟩], some 1⟩ 1
      "loading" = ⟨DEFAULT_SETTINGS, [], some 1⟩ :=
  ⟨(claim7_context_amended ⟨DEFAULT_SETTINGS, [⟨"tok", "u", 0⟩], some 1⟩ 2).1
      (by decide),
   (claim7_context_amended ⟨DEFAULT_SETTINGS, [⟨"tok", "u", 0⟩], some 1⟩ 1).2.1
      rfl,
   (claim7_context_amended ⟨DEFAULT_SETTINGS, [⟨"tok", "u", 0⟩], some 1⟩ 1).2.2.2
      rfl⟩

/-! Section: Claim C5: the bearer-header rule -/

/-- The bearer extraction rule as the spec words it (for comparison with
the source's `extractTokenFromHeaders`): first header named
`authorization` (case-insensitive) whose value has the case-insensitive
`Bearer` prefix; the token is the *trimmed* remainder after the prefix,
paired with the request URL as source label. -/
def specBearerTrimmed (headers : List Header) (url : String) :
    Option TokenItem :=
  headers.findSome? (fun h =>
    if lowerStr h.name == "authorization" then
      if (h.value.data.take 6).map Char.toLower == "bearer".data then
        let tok := jsTrim (String.mk (h.value.data.drop 6))
        if tok != "" then some ⟨tok, url⟩ else none
      else none
    else none)

/-- The per-value bearer extraction under the *amended* reading: the token
is the remainder after the `Bearer` prefix with its *leading* whitespace
removed (at least one whitespace character required; trailing whitespace
preserved). -/
def strippedCapture (v : String) : Option String :=
  let r := v.data.drop 6
  if (v.data.take 6).map Char.toLower == "bearer".data then
    if (r.takeWhile jsSpace).isEmpty then none
    else if (r.dropWhile jsSpace).isEmpty then none
    else some (String.mk (r.dropWhile jsSpace))
  else none

/-- The amended spec-level bearer rule over a header list: first
`authorization` header (case-insensitive) whose value yields a stripped
capture; the candidate pairs the token with the request URL. -/
def specBearerStripped (headers : List Header) (url : String) :
    Option TokenItem :=
  headers.findSome? (fun h =>
    if lowerStr h.name == "authorization" then
      (strippedCapture h.value).map (fun t => ⟨t, url⟩)
    else none)

/-- On header values free of line terminators and not degenerating to an
all-whitespace remainder, the regex capture agrees with the leading-strip
reading. -/
theorem bearerCapture_eq_strippedCapture (v : String)
    (h1 : ∀ ch ∈ v.data, jsLineTerm ch = false)
    (h2 : ¬((v.data.take 6).map Char.toLower = "bearer".data ∧
            v.data.drop 6 ≠ [] ∧ (v.data.drop 6).dropWhile jsSpace = [])) :
    bearerCapture v = strippedCapture v := by
  simp only [bearerCapture, strippedCapture]
  by_cases hpre : ((v.data.take 6).map Char.toLower == "bearer".data) = true
  · rw [if_pos hpre, if_pos hpre]
    by_cases hw : (((v.data.drop 6).takeWhile jsSpace).isEmpty) = true
    · rw [if_pos hw, if_pos hw]
    · rw [if_neg hw, if_neg hw]
      by_cases ht : (((v.data.drop 6).dropWhile jsSpace).isEmpty) = true
      · exfalso
        apply h2
        refine ⟨by simpa using hpre, ?_, by simpa using ht⟩
        intro hnil
        rw [hnil] at hw
        simp at hw
      · have ht' : (((v.data.drop 6).dropWhile jsSpace).isEmpty) = false :=
          Bool.eq_false_iff.mpr ht
        have hterm :
            (((v.data.drop 6).dropWhile jsSpace).any jsLineTerm) = false := by
          rw [List.any_eq_false]
          intro ch hch
          have hch' : ch ∈ v.data :=
            ((List.dropWhile_sublist jsSpace).trans
              (List.drop_sublist 6 v.data)).mem hch
          simp [h1 ch hch']
        have hnot : ((!((v.data.drop 6).dropWhile jsSpace).isEmpty) = true) := by
          rw [ht']; rfl
        rw [if_pos hnot, if_neg ht, if_neg (by simp [hterm])]
  · rw [if_neg hpre, if_neg hpre]

/-- C5 (counterexample).  The claim says the returned token is the
*trimmed* remainder after the `Bearer` prefix.  On the header value
`"Bearer tok "` the regex `/^Bearer\s+(.+)$/i` captures `"tok "` — the
trailing space is part of `(.+)` — so the code returns `"tok "`, while the
spec-worded rule returns the trimmed `"tok"`.  The two differ. -/
theorem claim5_counterexample :
    extractTokenFromHeaders [⟨"Authorization", "Bearer tok "⟩]
      DEFAULT_SETTINGS = some "tok " ∧
    specBearerTrimmed [⟨"Authorization", "Bearer tok "⟩]
      "https://api.example.com/v1" =
      some ⟨"tok", "https://api.example.com/v1"⟩ ∧
    ("tok " : String) ≠ "tok" := by
  exact ⟨rfl, rfl, by decide⟩

/-- C5 (amended, proved).  Under a bearer policy the matcher scans the
header list in order for the first header whose name equals
`authorization` case-insensitively and whose value has the
case-insensitive `Bearer` prefix followed by at least one whitespace
character; the returned token is the remainder with its *leading*
whitespace removed — trailing whitespace is preserved, not trimmed
(established on values free of line terminators and of all-whitespace
remainders, where the regex has no degenerate backtracking).  The
candidate's source label is the request URL: `handleWebRequest` stores an
extracted token under `details.url`. -/
theorem claim5_bearer_amended (headers : List Header) (s : Settings)
    (url : String) (st : BGState) (d : RequestDetails) (now : Nat)
    (tok : String)
    (hbt : s.tokenType = "bearer")
    (hclean : ∀ h ∈ headers,
      (∀ ch ∈ h.value.data, jsLineTerm ch = false) ∧
      ¬((h.value.data.take 6).map Char.toLower = "bearer".data ∧
        h.value.data.drop 6 ≠ [] ∧
        (h.value.data.drop 6).dropWhile jsSpace = []))
    (htab : st.activeTabId = some d.tabId)
    (hsrc : st.settings.tokenSource = "headers")
    (hex : extractTokenFromHeaders d.requestHeaders st.settings = some tok)
    (hne : tok ≠ "") :
    extractTokenFromHeaders headers s =
      Option.map TokenItem.token (specBearerStripped headers url) ∧
    (∀ it : TokenItem, specBearerStripped headers url = some it →
      it.url = url) ∧
    handleWebRequest st d now =
      { st with tokens :=
          (addToken st.tokens tok d.url st.settings.maxTokens now).1 } := by
  refine ⟨?_, ?_, ?_⟩
  · induction headers with
    | nil => simp [extractTokenFromHeaders, specBearerStripped]
    | cons h rest ih =>
      have hh := hclean h (by simp)
      have hrest : ∀ h' ∈ rest,
          (∀ ch ∈ h'.value.data, jsLineTerm ch = false) ∧
          ¬((h'.value.data.take 6).map Char.toLower = "bearer".data ∧
            h'.value.data.drop 6 ≠ [] ∧
            (h'.value.data.drop 6).dropWhile jsSpace = []) :=
        fun h' hm => hclean h' (by simp [hm])
      by_cases hname : lowerStr h.name == "authorization"
      · simp only [extractTokenFromHeaders, specBearerStripped,
          List.findSome?_cons, hbt, hname, if_true]
        rw [bearerCapture_eq_strippedCapture h.value hh.1 hh.2]
        cases hc : strippedCapture h.value with
        | some t => simp
        | none =>
          simpa [extractTokenFromHeaders, specBearerStripped, hbt]
            using ih hrest
      · simp only [extractTokenFromHeaders, specBearerStripped,
          List.findSome?_cons, hbt, hname]
        simpa [extractTokenFromHeaders, specBearerStripped, hbt, hname]
          using ih hrest
  · intro it hit
    rcases List.exists_of_findSome?_eq_some hit with ⟨h, _, hf⟩
    by_cases hname : lowerStr h.name == "authorization"
    · simp only [hname, if_true] at hf
      cases hc : strippedCapture h.value with
      | none => simp [hc] at hf
      | some t =>
        simp [hc] at hf
        simp [← hf]
    · simp [hname] at hf
  · have htok : (tok == "") = false := by
      simp [hne]
    simp [handleWebRequest, htab, hsrc, hex, htok]

/-- Witness for the amended C5: concrete header lists and a concrete web
request exercising all three conjuncts. -/
theorem claim5_bearer_amended_witness :
    extractTokenFromHeaders [⟨"X-Other", "1"⟩, ⟨"AUTHORIZATION", "bearer  abc"⟩]
        DEFAULT_SETTINGS =
      Option.map TokenItem.token
        (specBearerStripped [⟨"X-Other", "1"⟩, ⟨"AUTHORIZATION", "bearer  abc"⟩] "u") ∧
    (TokenItem.mk "abc" "u").url = "u" ∧
    handleWebRequest ⟨DEFAULT_SETTINGS, [], some 7⟩
        ⟨7, "https://x/y", [⟨"Authorization", "Bearer abc123"⟩]⟩ 3 =
      { settings := DEFAULT_SETTINGS,
        tokens := (addToken [] "abc123" "https://x/y" DEFAULT_SETTINGS.maxTokens 3).1,
        activeTabId := some 7 } := by
  have h := claim5_bearer_amended
    [⟨"X-Other", "1"⟩, ⟨"AUTHORIZATION", "bearer  abc"⟩] DEFAULT_SETTINGS "u"
    ⟨DEFAULT_SETTINGS, [], some 7⟩
    ⟨7, "https://x/y", [⟨"Authorization", "Bearer abc123"⟩]⟩ 3 "abc123"
    rfl (by decide) rfl rfl (by decide) (by decide)
  exact ⟨h.1, h.2.1 ⟨"abc", "u"⟩ (by decide), h.2.2⟩

/-! Section: Helper lemmas for claims C8, C9, C10 -/

/-- The function `addToken` preserves "every stored token is non-empty" when the
inserted token is non-empty. -/
theorem addToken_nonempty (c : Collection) (tok url : String) (k now : Nat)
    (hc : ∀ e ∈ c, e.token ≠ "") (htok : tok ≠ "") :
    ∀ e ∈ (addToken c tok url k now).1, e.token ≠ "" := by
  intro e he
  rcases addToken_mem c tok url k now e he with h | h
  · exact hc e h
  · rw [h]; exact htok

/-- The fold `addFoundTokens` preserves non-emptiness when every found item's token
is non-empty. -/
theorem addFoundTokens_nonempty (items : List TokenItem) (c : Collection)
    (k now : Nat) (hc : ∀ e ∈ c, e.token ≠ "")
    (hitems : ∀ it ∈ items, it.token ≠ "") :
    ∀ e ∈ addFoundTokens c items k now, e.token ≠ "" := by
  induction items generalizing c with
  | nil => simpa [addFoundTokens] using hc
  | cons it rest ih =>
    have h1 : ∀ e ∈ (addToken c it.token it.url k now).1, e.token ≠ "" :=
      addToken_nonempty c it.token it.url k now hc
        (hitems it (by simp))
    have h2 : ∀ x ∈ rest, x.token ≠ "" := fun x hx => hitems x (by simp [hx])
    simpa [addFoundTokens] using ih (addToken c it.token it.url k now).1 h1 h2

/-- Shape of any item produced by one store scan: it comes from a pair of
the store, carries that pair's value as token and the tagged key as source
label, passes the length filter, and its key matches some pattern. -/
theorem scanStore_mem (tag : String) (entries : List (String × String))
    (patterns : List String) (item : TokenItem)
    (h : item ∈ scanStore tag entries patterns) :
    ∃ kv ∈ entries, item.token = kv.2 ∧ item.url = tag ++ ":" ++ kv.1 ∧
      kv.2.length > 10 ∧
      keyMatchesPatterns patterns (lowerStr kv.1) = true := by
  rcases List.mem_filterMap.mp h with ⟨kv, hkv, hf⟩
  by_cases hc : (keyMatchesPatterns patterns (lowerStr kv.1) &&
      kv.2.length > 10) = true
  · rw [if_pos hc] at hf
    injection hf with hf'
    rw [Bool.and_eq_true] at hc
    obtain ⟨h1, h2⟩ := hc
    refine ⟨kv, hkv, ?_, ?_, ?_, h1⟩
    · rw [← hf']
    · rw [← hf']
    · simpa using h2
  · rw [if_neg hc] at hf
    cases hf

/-- Every item produced by the storage scan has a token longer than 10
characters, hence non-empty. -/
theorem storage_item_nonempty (tokenType customHeaderName : String)
    (localStore sessionStore : List (String × String)) (item : TokenItem)
    (h : item ∈ extractTokensFromStorage tokenType customHeaderName
      localStore sessionStore) : item.token ≠ "" := by
  unfold extractTokensFromStorage at h
  rcases List.mem_append.mp h with h' | h' <;>
  · rcases scanStore_mem _ _ _ _ h' with ⟨kv, _, htok, _, hlen, _⟩
    rw [htok]
    intro hempty
    rw [hempty] at hlen
    simp [String.length] at hlen

/-- Shape of any item produced by the cookie scan (as `scanStore_mem`). -/
theorem cookies_mem (tokenType customHeaderName : String)
    (cookies : List (String × String)) (item : TokenItem)
    (h : item ∈ extractTokensFromCookies tokenType customHeaderName cookies) :
    ∃ kv ∈ cookies, item.token = kv.2 ∧ item.url = "cookie:" ++ kv.1 ∧
      kv.2.length > 10 ∧
      keyMatchesPatterns (cookieSearchPatterns tokenType customHeaderName)
        (lowerStr kv.1) = true := by
  rcases List.mem_filterMap.mp h with ⟨kv, hkv, hf⟩
  by_cases hc : (keyMatchesPatterns
      (cookieSearchPatterns tokenType customHeaderName) (lowerStr kv.1) &&
      kv.2.length > 10) = true
  · rw [if_pos hc] at hf
    injection hf with hf'
    rw [Bool.and_eq_true] at hc
    obtain ⟨h1, h2⟩ := hc
    refine ⟨kv, hkv, ?_, ?_, ?_, h1⟩
    · rw [← hf']
    · rw [← hf']
    · simpa using h2
  · rw [if_neg hc] at hf
    cases hf

/-- Every item produced by the cookie scan has a non-empty token. -/
theorem cookie_item_nonempty (tokenType customHeaderName : String)
    (cookies : List (String × String)) (item : TokenItem)
    (h : item ∈ extractTokensFromCookies tokenType customHeaderName cookies) :
    item.token ≠ "" := by
  rcases cookies_mem _ _ _ _ h with ⟨kv, _, htok, _, hlen, _⟩
  rw [htok]
  intro hempty
  rw [hempty] at hlen
  simp [String.length] at hlen

/-- A web-request event whose extraction yields `null` or the empty string
leaves the background state untouched. -/
theorem handleWebRequest_no_insert (st : BGState) (d : RequestDetails)
    (now : Nat)
    (h : extractTokenFromHeaders d.requestHeaders st.settings = none ∨
         extractTokenFromHeaders d.requestHeaders st.settings = some "") :
    handleWebRequest st d now = st := by
  unfold handleWebRequest
  by_cases h1 : (st.activeTabId != some d.tabId) = true
  · rw [if_pos h1]
  · rw [if_neg h1]
    by_cases h2 : (st.settings.tokenSource != "headers") = true
    · rw [if_pos h2]
    · rw [if_neg h2]
      rcases h with h | h <;> rw [h]
      simp

/-- One background step preserves "every stored token is non-empty". -/
theorem stepEvent_nonempty (st : BGState) (ev : BgEvent)
    (hc : ∀ e ∈ st.tokens, e.token ≠ "") :
    ∀ e ∈ (stepEvent st ev).tokens, e.token ≠ "" := by
  cases ev with
  | webRequest d now =>
    show ∀ e ∈ (handleWebRequest st d now).tokens, e.token ≠ ""
    unfold handleWebRequest
    by_cases h1 : (st.activeTabId != some d.tabId) = true
    · rw [if_pos h1]; exact hc
    · rw [if_neg h1]
      by_cases h2 : (st.settings.tokenSource != "headers") = true
      · rw [if_pos h2]; exact hc
      · rw [if_neg h2]
        cases hex : extractTokenFromHeaders d.requestHeaders st.settings with
        | none => exact hc
        | some tok =>
          dsimp only
          by_cases htok : (tok == "") = true
          · rw [if_pos htok]; exact hc
          · rw [if_neg htok]
            exact addToken_nonempty st.tokens tok d.url
              st.settings.maxTokens now hc (by simpa using htok)
  | scanRequest ls ss ck u now =>
    show ∀ e ∈ (handleScanMessage st ls ss ck u now).tokens, e.token ≠ ""
    unfold handleScanMessage
    by_cases h1 : (st.settings.tokenSource == "storage") = true
    · rw [if_pos h1]
      exact addFoundTokens_nonempty _ _ _ _ hc
        (fun it hit => storage_item_nonempty _ _ _ _ it hit)
    · rw [if_neg h1]
      by_cases h2 : (st.settings.tokenSource == "cookies") = true
      · rw [if_pos h2]
        cases u with
        | some u' =>
          exact addFoundTokens_nonempty _ _ _ _ hc
            (fun it hit => cookie_item_nonempty _ _ _ it hit)
        | none => exact hc
      · rw [if_neg h2]; exact hc
  | clearData => intro e he; cases he
  | settingsFormSubmit f =>
    show ∀ e ∈ ((setPolicy st f).1).tokens, e.token ≠ ""
    unfold setPolicy
    cases hs : settingsSubmit f with
    | validationError => exact hc
    | saved s => intro e he; cases he
  | tabActivated tid => intro e he; cases he
  | tabUpdated tid status =>
    show ∀ e ∈ (tabsUpdatedListener st tid status).tokens, e.token ≠ ""
    unfold tabsUpdatedListener
    by_cases h1 : ((some tid == st.activeTabId) && (status == "loading")) = true
    · rw [if_pos h1]; intro e he; cases he
    · rw [if_neg h1]; exact hc

/-- A whole event run preserves "every stored token is non-empty". -/
theorem runEvents_nonempty (evs : List BgEvent) (st : BGState)
    (hc : ∀ e ∈ st.tokens, e.token ≠ "") :
    ∀ e ∈ (runEvents st evs).tokens, e.token ≠ "" := by
  induction evs generalizing st with
  | nil => simpa [runEvents] using hc
  | cons ev rest ih =>
    simpa [runEvents] using ih (stepEvent st ev) (stepEvent_nonempty st ev hc)

/-! Section: Claims C8, C9, C10 -/

/-- C8 (confirmed).  Starting from any state whose stored tokens are
all non-empty (in particular the initial empty collection), every stored
token remains non-empty after any sequence of events: the web-request path
discards a falsy extracted token (`if (!token) return`), so a matched
session/custom header carrying an empty value is never inserted, and
storage/cookie candidates pass the `length > 10` filter.  Moreover a
request whose extraction yields the empty string leaves the state entirely
unchanged. -/
theorem claim8_nonempty_invariant (st : BGState) (evs : List BgEvent)
    (hst : ∀ e ∈ st.tokens, e.token ≠ "")
    (d : RequestDetails) (now : Nat)
    (hempty : extractTokenFromHeaders d.requestHeaders st.settings = some "") :
    (∀ e ∈ (runEvents st evs).tokens, e.token ≠ "") ∧
    handleWebRequest st d now = st :=
  ⟨runEvents_nonempty evs st hst,
   handleWebRequest_no_insert st d now (Or.inr hempty)⟩

/-- Witness for C8: a session policy, a request carrying an empty
`x-session-token` header (matched, empty value), a run with that request
and a storage scan — every stored token non-empty, and the empty-valued
matched header inserts nothing. -/
theorem claim8_nonempty_invariant_witness :
    (∀ e ∈ (runEvents ⟨⟨"session", "", "headers", 5, true⟩, [], some 1⟩
        [BgEvent.webRequest ⟨1, "https://a/b", [⟨"X-Session-Token", ""⟩]⟩ 0,
         BgEvent.webRequest ⟨1, "https://a/b", [⟨"X-Session-Token", "s3cr3t"⟩]⟩ 1]).tokens,
      e.token ≠ "") ∧
    handleWebRequest ⟨⟨"session", "", "headers", 5, true⟩, [], some 1⟩
      ⟨1, "https://a/b", [⟨"X-Session-Token", ""⟩]⟩ 0 =
      ⟨⟨"session", "", "headers", 5, true⟩, [], some 1⟩ :=
  claim8_nonempty_invariant ⟨⟨"session", "", "headers", 5, true⟩, [], some 1⟩
    [BgEvent.webRequest ⟨1, "https://a/b", [⟨"X-Session-Token", ""⟩]⟩ 0,
     BgEvent.webRequest ⟨1, "https://a/b", [⟨"X-Session-Token", "s3cr3t"⟩]⟩ 1]
    (by intro e he; cases he)
    ⟨1, "https://a/b", [⟨"X-Session-Token", ""⟩]⟩ 0 (by decide)

/-- C9 (confirmed).  A storage entry yields a candidate only if its
lowercased key contains some keyword of the set selected by the detection
kind and its value is longer than 10 characters; the candidate carries the
entry's value as token and `"<storageKind>:<key>"` as source label.  And
on the spec's Scenario 5 store — `auth_token_v2` with a length-8 value,
`auth_token_v2b` with a length-30 value — only the length-30 value yields
a candidate. -/
theorem claim9_storage_filter (tokenType customHeaderName : String)
    (localStore sessionStore : List (String × String)) (item : TokenItem)
    (hmem : item ∈ extractTokensFromStorage tokenType customHeaderName
      localStore sessionStore) :
    (∃ kv : String × String,
      ((kv ∈ localStore ∧ item.url = "localStorage:" ++ kv.1) ∨
       (kv ∈ sessionStore ∧ item.url = "sessionStorage:" ++ kv.1)) ∧
      item.token = kv.2 ∧ kv.2.length > 10 ∧
      ∃ kw ∈ storageSearchPatterns tokenType customHeaderName,
        strIncludes (lowerStr kv.1) (lowerStr kw) = true) ∧
    extractTokensFromStorage "bearer" ""
      [("auth_token_v2", "12345678"),
       ("auth_token_v2b", String.mk (List.replicate 30 'x'))] [] =
      [⟨String.mk (List.replicate 30 'x'), "localStorage:auth_token_v2b"⟩] := by
  constructor
  · unfold extractTokensFromStorage at hmem
    rcases List.mem_append.mp hmem with h | h <;>
      rcases scanStore_mem _ _ _ _ h with ⟨kv, hkv, htok, hurl, hlen, hpat⟩
    · exact ⟨kv, Or.inl ⟨hkv, hurl⟩, htok, hlen,
        List.any_eq_true.mp hpat⟩
    · exact ⟨kv, Or.inr ⟨hkv, hurl⟩, htok, hlen,
        List.any_eq_true.mp hpat⟩
  · rfl

/-- Witness for C9: the Scenario-5 candidate is a member of the scan
result, and the characterization applies to it. -/
theorem claim9_storage_filter_witness :
    (∃ kv : String × String,
      ((kv ∈ [("auth_token_v2", "12345678"),
              ("auth_token_v2b", String.mk (List.replicate 30 'x'))] ∧
        (TokenItem.mk (String.mk (List.replicate 30 'x'))
          "localStorage:auth_token_v2b").url = "localStorage:" ++ kv.1) ∨
       (kv ∈ ([] : List (String × String)) ∧
        (TokenItem.mk (String.mk (List.replicate 30 'x'))
          "localStorage:auth_token_v2b").url = "sessionStorage:" ++ kv.1)) ∧
      (TokenItem.mk (String.mk (List.replicate 30 'x'))
        "localStorage:auth_token_v2b").token = kv.2 ∧ kv.2.length > 10 ∧
      ∃ kw ∈ storageSearchPatterns "bearer" "",
        strIncludes (lowerStr kv.1) (lowerStr kw) = true) ∧
    extractTokensFromStorage "bearer" ""
      [("auth_token_v2", "12345678"),
       ("auth_token_v2b", String.mk (List.replicate 30 'x'))] [] =
      [⟨String.mk (List.replicate 30 'x'), "localStorage:auth_token_v2b"⟩] :=
  claim9_storage_filter "bearer" ""
    [("auth_token_v2", "12345678"),
     ("auth_token_v2b", String.mk (List.replicate 30 'x'))] []
    ⟨String.mk (List.replicate 30 'x'), "localStorage:auth_token_v2b"⟩
    (by decide)

/-- Under "custom" settings with an empty header name, no header ever
matches: the truthiness guard on `customHeaderName` fails for every
header. -/
theorem extract_none_of_custom_empty (headers : List Header) (s : Settings)
    (hT : s.tokenType = "custom") (hN : s.customHeaderName = "") :
    extractTokenFromHeaders headers s = none := by
  induction headers with
  | nil => rfl
  | cons h rest ih =>
    unfold extractTokenFromHeaders
    rw [if_neg (by simp [hT]), if_neg (by simp [hT]),
      if_pos (by simp [hT]), if_neg (by simp [hN])]
    exact ih

/-- C10 (confirmed).  With token type `custom` and an empty
`customHeaderName` (the default), no source yields a candidate: the header
matcher returns `null` on every header list, the storage and cookie scans
use an empty keyword set and return no items, a web request leaves the
state unchanged, and a scan leaves the collection unchanged. -/
theorem claim10_custom_empty (s : Settings)
    (hT : s.tokenType = "custom") (hN : s.customHeaderName = "")
    (headers : List Header) (ls ss cookies : List (String × String))
    (st : BGState) (hsT : st.settings.tokenType = "custom")
    (hsN : st.settings.customHeaderName = "")
    (d : RequestDetails) (now : Nat) (tabUrl : Option String) :
    extractTokenFromHeaders headers s = none ∧
    extractTokensFromStorage s.tokenType s.customHeaderName ls ss = [] ∧
    extractTokensFromCookies s.tokenType s.customHeaderName cookies = [] ∧
    handleWebRequest st d now = st ∧
    (handleScanMessage st ls ss cookies tabUrl now).tokens = st.tokens := by
  have hstore : ∀ l : List (String × String), ∀ tag : String,
      scanStore tag l (storageSearchPatterns s.tokenType s.customHeaderName) = [] := by
    intro l tag
    unfold scanStore
    rw [List.filterMap_eq_nil_iff]
    intro kv _
    rw [if_neg]
    simp [keyMatchesPatterns, storageSearchPatterns, hT, hN]
  refine ⟨extract_none_of_custom_empty headers s hT hN, ?_, ?_, ?_, ?_⟩
  · unfold extractTokensFromStorage
    rw [hstore ls "localStorage", hstore ss "sessionStorage"]
    rfl
  · unfold extractTokensFromCookies
    rw [List.filterMap_eq_nil_iff]
    intro kv _
    rw [if_neg]
    simp [keyMatchesPatterns, cookieSearchPatterns, hT, hN]
  · exact handleWebRequest_no_insert st d now
      (Or.inl (extract_none_of_custom_empty d.requestHeaders st.settings hsT hsN))
  · have hstore' : ∀ l : List (String × String), ∀ tag : String,
        scanStore tag l (storageSearchPatterns st.settings.tokenType
          st.settings.customHeaderName) = [] := by
      intro l tag
      unfold scanStore
      rw [List.filterMap_eq_nil_iff]
      intro kv _
      rw [if_neg]
      simp [keyMatchesPatterns, storageSearchPatterns, hsT, hsN]
    unfold handleScanMessage
    by_cases h1 : (st.settings.tokenSource == "storage") = true
    · rw [if_pos h1]
      unfold extractTokensFromStorage
      rw [hstore' ls "localStorage", hstore' ss "sessionStorage"]
      rfl
    · rw [if_neg h1]
      by_cases h2 : (st.settings.tokenSource == "cookies") = true
      · rw [if_pos h2]
        cases tabUrl with
        | some u =>
          have hck : extractTokensFromCookies st.settings.tokenType
              st.settings.customHeaderName cookies = [] := by
            unfold extractTokensFromCookies
            rw [List.filterMap_eq_nil_iff]
            intro kv _
            rw [if_neg]
            simp [keyMatchesPatterns, cookieSearchPatterns, hsT, hsN]
          rw [hck]
          rfl
        | none => rfl
      · rw [if_neg h2]

/-- Witness for C10 at concrete custom-with-empty-name settings, header
lists, stores and a request. -/
theorem claim10_custom_empty_witness :
    extractTokenFromHeaders [⟨"X-Api-Key", "secretvalue123"⟩]
      ⟨"custom", "", "headers", 5, true⟩ = none ∧
    extractTokensFromStorage "custom" ""
      [("token", "0123456789abc")] [("session", "0123456789abc")] = [] ∧
    extractTokensFromCookies "custom" "" [("jwt", "0123456789abc")] = [] ∧
    handleWebRequest ⟨⟨"custom", "", "headers", 5, true⟩, [], some 1⟩
      ⟨1, "https://a/b", [⟨"X-Api-Key", "secretvalue123"⟩]⟩ 0 =
      ⟨⟨"custom", "", "headers", 5, true⟩, [], some 1⟩ ∧
    (handleScanMessage ⟨⟨"custom", "", "storage", 5, true⟩, [], some 1⟩
      [("token", "0123456789abc")] [("session", "0123456789abc")]
      [("jwt", "0123456789abc")] (some "https://a/b") 0).tokens =
      (⟨⟨"custom", "", "storage", 5, true⟩, [], some 1⟩ : BGState).tokens := by
  have h1 := claim10_custom_empty ⟨"custom", "", "headers", 5, true⟩ rfl rfl
    [⟨"X-Api-Key", "secretvalue123"⟩]
    [("token", "0123456789abc")] [("session", "0123456789abc")]
    [("jwt", "0123456789abc")]
    ⟨⟨"custom", "", "headers", 5, true⟩, [], some 1⟩ rfl rfl
    ⟨1, "https://a/b", [⟨"X-Api-Key", "secretvalue123"⟩]⟩ 0 (some "https://a/b")
  have h2 := claim10_custom_empty ⟨"custom", "", "storage", 5, true⟩ rfl rfl
    [⟨"X-Api-Key", "secretvalue123"⟩]
    [("token", "0123456789abc")] [("session", "0123456789abc")]
    [("jwt", "0123456789abc")]
    ⟨⟨"custom", "", "storage", 5, true⟩, [], some 1⟩ rfl rfl
    ⟨1, "https://a/b", [⟨"X-Api-Key", "secretvalue123"⟩]⟩ 0 (some "https://a/b")
  exact ⟨h1.1, h1.2.1, h1.2.2.1, h1.2.2.2.1, h2.2.2.2.2⟩

end TokenPicker
